import Mathlib

/-!
Verification of the keenetic-maxprobe Web UI control service
(src/collectors/py/webui/server.py) against its natural-language
specification.

Shallow embedding conventions:
- Python dicts (request parameters, parsed config, query strings, headers)
  are modelled as functions `String → Option String`; request bodies are
  taken to carry string-valued JSON parameters.
- The process table at the moment of a call is a snapshot `alive : Nat → Bool`
  (process identifier to liveness); `Popen.poll() is None` for the recorded
  process object is `alive pid = true`.
- The filesystem is a list of entries (path as a list of segments from the
  root, each entry a directory or a regular file with string content and a
  natural-number mtime). File content is modelled as a sequence of one-byte
  characters, so byte counts coincide with character counts.
- `json.loads` and tar-member lookup are external stdlib facilities; they are
  passed in as arbitrary total functions (`jsonParse`, `tarMember`) because
  the source wraps each use in try/except that converts any failure into a
  default value.
- Reads of probe-written meta files model each path as either absent or a
  regular file with arbitrary content, which covers the failure classes the
  specification enumerates (missing, truncated, malformed).
-/

namespace KMP

/-- Whitespace class used by the Python str.strip / str.split models. -/
def isWs (c : Char) : Bool := c = ' ' || c = '\t' || c = '\n' || c = '\r'

def listTrim (l : List Char) : List Char :=
  ((l.dropWhile isWs).reverse.dropWhile isWs).reverse

/-- Model of Python str.strip(). -/
def strTrim (s : String) : String := String.mk (listTrim s.data)

/-- Model of Python str.lower(). -/
def strLower (s : String) : String := String.mk (s.data.map Char.toLower)

/-- Model of Python str.startswith(pre). -/
def strStartsWith (s pre : String) : Bool := pre.data.isPrefixOf s.data

/-- Model of Python str.endswith(suf). -/
def strEndsWith (s suf : String) : Bool := suf.data.isSuffixOf s.data

def splitCharAux (sep : Char) (acc : List Char) : List Char → List String
  | [] => [String.mk acc.reverse]
  | c :: rest =>
    if c = sep then String.mk acc.reverse :: splitCharAux sep [] rest
    else splitCharAux sep (c :: acc) rest

/-- Model of Python str.split(sep) for a one-character separator. -/
def splitChar (sep : Char) (s : String) : List String := splitCharAux sep [] s.data

/-- Model of Python str.split(None, 1): split on runs of whitespace, at most
once, discarding leading whitespace; an all-whitespace string yields []. -/
def splitNone1 (s : String) : List String :=
  let l := s.data.dropWhile isWs
  if l.isEmpty then []
  else
    let f1 := l.takeWhile (fun c => !(isWs c))
    let rest := (l.dropWhile (fun c => !(isWs c))).dropWhile isWs
    if rest.isEmpty then [String.mk f1] else [String.mk f1, String.mk rest]

/-! ### Configuration defaults and allow-lists (server.py lines 39-72) -/

/-- The DEFAULTS dict of server.py; keys outside the dict map to "". -/
def DEFAULTS : String → String
  | "LANG_UI" => "ru"
  | "PROFILE" => "auto"
  | "MODE" => "full"
  | "COLLECTORS" => "all"
  | "CUSTOM_COLLECTORS" => ""
  | "OUTBASE_POLICY" => "auto"
  | "OUTBASE_OVERRIDE" => ""
  | "CLEAN_OLD" => "0"
  | "CLEAN_TMP" => "0"
  | "DEBUG" => "1"
  | "SPINNER" => "0"
  | "YES" => "1"
  | "NO_INSTALL" => "0"
  | "DEPS_LEVEL" => "core"
  | "DEPS_MODE" => "cleanup"
  | "MAX_CPU" => "85"
  | "MAX_MEM" => "95"
  | "JOBS" => "auto"
  | "WEB_BIND" => "0.0.0.0"
  | "WEB_PORT" => "0"
  | "WEB_TOKEN" => ""
  | _ => ""

def ALLOWED_LANG_UI : List String := ["ru", "en"]
def ALLOWED_PROFILE : List String := ["auto", "forensic", "diagnostic", "lite"]
def ALLOWED_MODE : List String := ["safe", "full", "extream"]
def ALLOWED_COLLECTORS : List String := ["all", "shonly", "shpy", "custom"]
def ALLOWED_OUTBASE_POLICY : List String := ["auto", "ram", "entware"]
def ALLOWED_DEPS_LEVEL : List String := ["core", "collectors"]
def ALLOWED_DEPS_MODE : List String := ["cleanup", "keep"]

/-- The effective config `{**DEFAULTS, **cfg}` of build_command, looked up
with default "" (every key used below is a DEFAULTS key). -/
def eff (cfg : String → Option String) (k : String) : String :=
  (cfg k).getD (DEFAULTS k)

/-- The `pick` closure of App.build_command (server.py lines 346-352):
empty or non-allow-listed values fall back to the effective config. -/
def pick (params cfg : String → Option String) (key : String) (allowed : List String) : String :=
  let v := strTrim ((params key).getD "")
  if v = "" then eff cfg key
  else if !(allowed.contains v) then eff cfg key
  else v

/-- Spec-side restatement of the validation policy for one enumerated
parameter: the supplied value when it is non-empty and on the allow-list,
the configured default otherwise. Proved equal to `pick` below. -/
def validatedValue (params cfg : String → Option String) (key : String) (allowed : List String) : String :=
  let v := strTrim ((params key).getD "")
  if v ≠ "" ∧ allowed.contains v = true then v else eff cfg key

/-- Python truthiness of a parameter that build_command passes to bool():
present string values are truthy iff non-empty; an absent value falls back
to membership of the effective config value in the given truthy set
(server.py lines 364-365). -/
def boolParam (params cfg : String → Option String) (key : String) : Bool :=
  match params key with
  | some s => !(s == "")
  | none => ["1", "true", "yes"].contains (eff cfg key)

/-- Python truthiness with a literal default (DEBUG/NO_INSTALL,
server.py lines 366-367). -/
def boolParamDefault (params : String → Option String) (dflt : Bool) (key : String) : Bool :=
  match params key with
  | some s => !(s == "")
  | none => dflt

/-- PurePosixPath.is_absolute(): the path starts with "/". -/
def isAbsolutePath (s : String) : Bool := strStartsWith s "/"

/-- App.build_command (server.py lines 340-416). `cfg` is the dict parsed
from the shell config file. -/
def buildCommand (probeBin : String) (params cfg : String → Option String) : List String :=
  let lang := pick params cfg "LANG_UI" ALLOWED_LANG_UI
  let mode := pick params cfg "MODE" ALLOWED_MODE
  let profile := pick params cfg "PROFILE" ALLOWED_PROFILE
  let collectors := pick params cfg "COLLECTORS" ALLOWED_COLLECTORS
  let customCollectors := strTrim ((params "CUSTOM_COLLECTORS").getD (eff cfg "CUSTOM_COLLECTORS"))
  let outbasePolicy := pick params cfg "OUTBASE_POLICY" ALLOWED_OUTBASE_POLICY
  let outbaseOverride := strTrim ((params "OUTBASE_OVERRIDE").getD (eff cfg "OUTBASE_OVERRIDE"))
  let cleanOld := boolParam params cfg "CLEAN_OLD"
  let cleanTmp := boolParam params cfg "CLEAN_TMP"
  let debug := boolParamDefault params true "DEBUG"
  let noInstall := boolParamDefault params false "NO_INSTALL"
  let depsLevel := pick params cfg "DEPS_LEVEL" ALLOWED_DEPS_LEVEL
  let depsMode := pick params cfg "DEPS_MODE" ALLOWED_DEPS_MODE
  let maxCpu := strTrim ((params "MAX_CPU").getD (eff cfg "MAX_CPU"))
  let maxMem := strTrim ((params "MAX_MEM").getD (eff cfg "MAX_MEM"))
  let jobs := strTrim ((params "JOBS").getD (eff cfg "JOBS"))
  [probeBin]
    ++ ["--lang", lang]
    ++ ["--mode", mode]
    ++ ["--profile", profile]
    ++ ["--collectors", collectors]
    ++ (if collectors = "custom" ∧ customCollectors ≠ "" then ["--custom-collectors", customCollectors] else [])
    ++ ["--outbase-policy", outbasePolicy]
    ++ (if outbaseOverride ≠ "" then
          (if isAbsolutePath outbaseOverride then ["--outbase", outbaseOverride] else [])
        else [])
    ++ ["--deps-level", depsLevel]
    ++ ["--deps-mode", depsMode]
    ++ ["--max-cpu", maxCpu]
    ++ ["--max-mem", maxMem]
    ++ ["--jobs", jobs]
    ++ (if cleanOld then ["--clean-old"] else [])
    ++ (if cleanTmp then ["--clean-tmp"] else [])
    ++ (if noInstall then ["--no-install"] else [])
    ++ (if debug then ["--debug"] else ["--no-debug"])
    ++ ["--no-spinner"]
    ++ ["--yes"]

/-! ### Run control (server.py lines 151-169, 313-338)

App.__init__ sets `self.run_state = RunState(proc=None, started_ts=0.0, cmd=[])`
unconditionally: no lock file or persisted run record is read anywhere in the
source, so a freshly constructed (or restarted) service always begins in
`initRunState`. The `threading.Lock` held around start_run/stop_run makes each
of them one atomic step, which the functional model reflects. -/

structure RunState where
  proc : Option Nat
  startedTs : Nat
  cmd : List String
  deriving DecidableEq

/-- The state App.__init__ constructs (server.py line 169). -/
def initRunState : RunState := ⟨none, 0, []⟩

/-- The guard `self.run_state.proc and self.run_state.proc.poll() is None`. -/
def procAlive (alive : Nat → Bool) (st : RunState) : Bool :=
  match st.proc with
  | some p => alive p
  | none => false

structure StartResp where
  ok : Bool
  error : Option String
  pid : Option Nat
  cmd : Option (List String)
  deriving DecidableEq

/-- App.start_run (server.py lines 313-321). `newPid` is the pid the spawned
process receives, `now` the clock reading. -/
def startRun (alive : Nat → Bool) (st : RunState) (probeBin : String)
    (params cfg : String → Option String) (newPid now : Nat) :
    StartResp × RunState :=
  if procAlive alive st then
    (⟨false, some "Probe is already running", none, none⟩, st)
  else
    let cmd := buildCommand probeBin params cfg
    (⟨true, none, some newPid, some cmd⟩, ⟨some newPid, now, cmd⟩)

structure StopResp where
  ok : Bool
  stopped : Bool
  note : Option String
  deriving DecidableEq

/-- App.stop_run (server.py lines 323-338). Termination signalling only
affects the external process; the recorded state is reset on every path. -/
def stopRun (alive : Nat → Bool) (st : RunState) : StopResp × RunState :=
  if !(procAlive alive st) then
    (⟨true, false, some "Not running"⟩, initRunState)
  else
    (⟨true, true, none⟩, initRunState)

/-! ### Token authentication (server.py lines 172-189) -/

inductive TokCheck
  | ok (allowed : Bool)
  | indexError
  deriving DecidableEq

/-- App.check_token. `xkmp` is the X-KMP-Token header, `auth` the
Authorization header, `queryToken` the token query parameter (parse_qs drops
empty values, so an absent or blank parameter is `none`).
`auth.split(None, 1)[1]` in the source raises IndexError when the split
yields fewer than two fields; that path is `TokCheck.indexError`. -/
def checkToken (xkmp auth queryToken : Option String) (secret : String) : TokCheck :=
  let t0 : String :=
    match xkmp with
    | some h => if h = "" then "" else strTrim h
    | none => ""
  let t1E : Except Unit String :=
    if t0 = "" then
      match auth with
      | some a =>
        if a ≠ "" ∧ strStartsWith (strLower a) "bearer " then
          match (splitNone1 a).get? 1 with
          | some r => .ok (strTrim r)
          | none => .error ()
        else .ok t0
      | none => .ok t0
    else .ok t0
  match t1E with
  | .error _ => .indexError
  | .ok t1 =>
    let t2 := if t1 = "" then queryToken.getD "" else t1
    if secret = "" then .ok true
    else .ok (!(t2 == "") && t2 == secret)

/-! ### Filesystem model

Paths are lists of segments from the root; entries are directories or regular
files with content and mtime. -/

inductive EntKind
  | file (content : String)
  | dir
  deriving DecidableEq

structure Ent where
  path : List String
  kind : EntKind
  mtime : Nat
  deriving DecidableEq

abbrev Fs := List Ent

def isDirKind : EntKind → Bool
  | .dir => true
  | .file _ => false

def fsLookup (fs : Fs) (p : List String) : Option Ent :=
  fs.find? (fun e => e.path == p)

def fsIsDir (fs : Fs) (p : List String) : Bool :=
  match fsLookup fs p with
  | some e => isDirKind e.kind
  | none => false

def fsGetFile (fs : Fs) (p : List String) : Option String :=
  match fsLookup fs p with
  | some e =>
    match e.kind with
    | .file c => some c
    | .dir => none
  | none => none

def fsIsFile (fs : Fs) (p : List String) : Bool := (fsGetFile fs p).isSome

/-- Size reported by stat: the byte length of a regular file's content
(directory sizes are irrelevant to every claim and modelled as 0). -/
def entSize (e : Ent) : Nat :=
  match e.kind with
  | .file c => c.length
  | .dir => 0

def entName (e : Ent) : String := (e.path.getLast?).getD ""

def isDirEnt (e : Ent) : Bool := isDirKind e.kind

def isFileEnt (e : Ent) : Bool := !(isDirKind e.kind)

/-! ### Candidate output bases (App.candidate_outbases, server.py 192-209) -/

/-- The hard-coded likely locations list of candidate_outbases. -/
def likelyLocations : List (List String) :=
  [["var", "tmp"], ["opt", "var", "tmp"], ["opt", "tmp"],
   ["storage", "var", "tmp"], ["storage", "tmp"], ["tmp"]]

/-- The dedup-and-filter loop of candidate_outbases: keep the first
occurrence of each path that exists as a directory. -/
def candLoop (fs : Fs) (uniq : List (List String)) : List (List String) → List (List String)
  | [] => uniq
  | p :: ps =>
    if uniq.contains p then candLoop fs uniq ps
    else if fsIsDir fs p then candLoop fs (uniq ++ [p]) ps
    else candLoop fs uniq ps

/-- App.candidate_outbases. `outbase` is the --outbase CLI value,
`confOverride` the OUTBASE_OVERRIDE parsed from the config file (each absent
when empty). -/
def candidateOutbases (fs : Fs) (outbase confOverride : Option (List String)) : List (List String) :=
  candLoop fs [] (outbase.toList ++ confOverride.toList ++ likelyLocations)

/-! ### Name patterns (the glob / fnmatch patterns of the source)

fnmatch translates `*` to `.*`, which matches any characters including `/`
and `..`; so the pattern `keenetic-maxprobe-*.tar.gz` holds exactly when the
name has the literal 18-character prefix and the literal suffix after it. -/

def patTarGz (n : String) : Bool :=
  strStartsWith n "keenetic-maxprobe-" && strEndsWith (String.mk (n.data.drop 18)) ".tar.gz"

def patSha256 (n : String) : Bool :=
  strStartsWith n "keenetic-maxprobe-" && strEndsWith (String.mk (n.data.drop 18)) ".tar.gz.sha256"

def patWork (n : String) : Bool :=
  strStartsWith n "keenetic-maxprobe-" && strEndsWith (String.mk (n.data.drop 18)) ".work"

/-- pathlib base.glob(pattern): the direct children of base whose final
segment matches the pattern, in directory enumeration order (the order of
the entry list). -/
def globEnts (fs : Fs) (base : List String) (pat : String → Bool) : List Ent :=
  fs.filter (fun e => e.path.dropLast == base && !(e.path.isEmpty) && pat (entName e))

/-! ### Stable descending sort by mtime (Python list.sort(key=..., reverse=True)) -/

/-- Ordering used by the archive/workdir listings: descending mtime. Python's
sort is stable, as is insertion sort with this relation. -/
def byMtimeDesc {α : Type} (key : α → Nat) (a b : α) : Prop := key b ≤ key a

instance {α : Type} (key : α → Nat) : DecidableRel (byMtimeDesc key) :=
  fun a b => Nat.decLe (key b) (key a)

instance {α : Type} (key : α → Nat) : IsTotal α (byMtimeDesc key) :=
  ⟨fun a b => Nat.le_total (key b) (key a)⟩

instance {α : Type} (key : α → Nat) : IsTrans α (byMtimeDesc key) :=
  ⟨fun _ _ _ h1 h2 => Nat.le_trans h2 h1⟩

/-! ### Archive and workdir discovery (server.py 212-226, 251-301) -/

structure ArchEnt where
  name : String
  path : List String
  base : List String
  size : Nat
  mtime : Nat
  deriving DecidableEq

def mkArchEnt (base : List String) (e : Ent) : ArchEnt :=
  ⟨entName e, e.path, base, entSize e, e.mtime⟩

/-- App.list_archives: per base, the *.tar.gz matches then the
*.tar.gz.sha256 matches, all sorted descending by mtime. The source applies
no is_file filter here. -/
def listArchives (fs : Fs) (bases : List (List String)) : List ArchEnt :=
  List.insertionSort (byMtimeDesc ArchEnt.mtime)
    ((bases.map (fun b =>
        (globEnts fs b patTarGz).map (mkArchEnt b)
          ++ (globEnts fs b patSha256).map (mkArchEnt b))).flatten)

/-- App.find_latest_workdir: *.work directories over all bases, most recent
mtime first. -/
def findLatestWorkdir (fs : Fs) (bases : List (List String)) : Option (List String) :=
  (List.insertionSort (byMtimeDesc Prod.fst)
      ((bases.map (fun b =>
          ((globEnts fs b patWork).filter isDirEnt).map (fun e => (e.mtime, e.path)))).flatten)).head?.map
    Prod.snd

/-- App.find_latest_archive: *.tar.gz regular files over all bases, most
recent mtime first. -/
def findLatestArchive (fs : Fs) (bases : List (List String)) : Option (List String) :=
  (List.insertionSort (byMtimeDesc Prod.fst)
      ((bases.map (fun b =>
          ((globEnts fs b patTarGz).filter isFileEnt).map (fun e => (e.mtime, e.path)))).flatten)).head?.map
    Prod.snd

/-! ### Bounded tail and tar-member extraction (server.py 123-137, 228-250) -/

/-- tail_text: the whole file when its size is within max_bytes, otherwise
exactly the last max_bytes bytes; any read failure (including a missing
file) yields "". -/
def tailText (file : Option String) (maxBytes : Nat) : String :=
  match file with
  | none => ""
  | some c =>
    if c.length ≤ maxBytes then c
    else String.mk (c.data.drop (c.length - maxBytes))

/-- Number of content bytes tail_text reads: the file size capped at
max_bytes (it seeks to the end and reads back at most max_bytes). -/
def tailTextBytesRead (file : Option String) (maxBytes : Nat) : Nat :=
  match file with
  | none => 0
  | some c => min c.length maxBytes

/-- Python str.lstrip("./"): remove every leading '.' or '/'. -/
def lstripDotSlash (s : String) : String :=
  String.mk (s.data.dropWhile (fun c => c = '.' || c = '/'))

/-- App.extract_member_text. `tarMember` abstracts a successful member read
from the tar.gz (None for a missing member, a missing archive, or any
tarfile failure — the source converts them all to "" via try/except); the
member is retried with leading "./" stripped, and at most maxBytes bytes of
it are read. -/
def extractMemberText (tarMember : List String → String → Option String)
    (arch : List String) (member : String) (maxBytes : Nat) : String :=
  match tarMember arch member with
  | some d => String.mk (d.data.take maxBytes)
  | none =>
    match tarMember arch (lstripDotSlash member) with
    | some d => String.mk (d.data.take maxBytes)
    | none => ""

/-! ### Progress and status (server.py 303-310, 419-458) -/

structure ProgressInfo where
  phase : String
  progress : String
  startedUtc : String
  opkgHint : String
  outbase : String
  deriving DecidableEq

/-- One meta-file read of App.read_progress: text stripped when the file
exists, "" otherwise. -/
def readMetaText (fs : Fs) (p : List String) : String :=
  match fsGetFile fs p with
  | some c => strTrim c
  | none => ""

/-- App.read_progress (server.py 303-310). -/
def readProgress (fs : Fs) (workdir : List String) : ProgressInfo :=
  ⟨readMetaText fs (workdir ++ ["meta", "phase.txt"]),
   readMetaText fs (workdir ++ ["meta", "progress.txt"]),
   readMetaText fs (workdir ++ ["meta", "started_utc.txt"]),
   readMetaText fs (workdir ++ ["meta", "opkg_storage_hint.txt"]),
   readMetaText fs (workdir ++ ["meta", "outbase.txt"])⟩

def emptyProgress : ProgressInfo := ⟨"", "", "", "", ""⟩

/-- latest_info of App.get_status. `summary = none` models an absent summary
key; `some none` models `"summary": null` after a failed json.loads;
`some (some j)` a parsed summary. Keys the source leaves out of the dict are
modelled by their default values. -/
structure LatestInfo where
  workdir : Option (List String)
  archive : Option (List String)
  prog : ProgressInfo
  summary : Option (Option String)
  deriving DecidableEq

structure StatusResp where
  ok : Bool
  running : Bool
  pid : Option Nat
  cmd : List String
  latest : LatestInfo
  archives : List ArchEnt
  deriving DecidableEq

/-- App.get_status (server.py 419-458). `jsonParse` abstracts json.loads
(None on a parse failure, which the source catches). -/
def getStatus (fs : Fs) (outbase confOverride : Option (List String))
    (jsonParse : String → Option String)
    (tarMember : List String → String → Option String)
    (alive : Nat → Bool) (st : RunState) : StatusResp :=
  let bases := candidateOutbases fs outbase confOverride
  let latest : LatestInfo :=
    match findLatestWorkdir fs bases with
    | some wd =>
      let summary :=
        match fsGetFile fs (wd ++ ["analysis", "summary.json"]) with
        | some c => some (jsonParse c)
        | none => none
      ⟨some wd, none, readProgress fs wd, summary⟩
    | none =>
      match findLatestArchive fs bases with
      | some arch =>
        let txt := extractMemberText tarMember arch "./analysis/summary.json" 512000
        let summary := if txt = "" then none else some (jsonParse txt)
        ⟨none, some arch, emptyProgress, summary⟩
      | none => ⟨none, none, emptyProgress, none⟩
  let running := procAlive alive st
  ⟨true, running, if running then st.proc else none, st.cmd, latest,
   (listArchives fs bases).take 50⟩

/-! ### The /api/log endpoint (server.py 522-541) -/

structure LogResp where
  ok : Bool
  text : String
  note : Option String
  deriving DecidableEq

/-- The /api/log handler: the only query parameter it reads is `kind`; the
tail is byte-bounded at tail_text's default 64000 bytes. -/
def handleApiLog (fs : Fs) (outbase confOverride : Option (List String))
    (query : String → Option String)
    (tarMember : List String → String → Option String) : LogResp :=
  let bases := candidateOutbases fs outbase confOverride
  let kind := (query "kind").getD "run"
  match findLatestWorkdir fs bases with
  | some wd =>
    let p := wd ++ ["meta", if kind = "errors" then "errors.log" else "run.log"]
    ⟨true, tailText (fsGetFile fs p) 64000, none⟩
  | none =>
    match findLatestArchive fs bases with
    | none => ⟨true, "", none⟩
    | some arch =>
      let member := if kind = "errors" then "./meta/errors.log" else "./meta/run.log"
      ⟨true, extractMemberText tarMember arch member 256000, some "from_archive_head"⟩

/-! ### Download serving (Handler.serve_download, server.py 640-663)

POSIX path resolution for `(base / name).exists()` / `.is_file()`: segments
are resolved left to right; "" and "." are skipped, ".." moves to the parent
(of the root is the root), and each traversal step requires the current
path to be an existing directory. -/

def resolveSegs (fs : Fs) : List String → List String → Option (List String)
  | cur, [] => some cur
  | cur, s :: rest =>
    if s = "" || s = "." then resolveSegs fs cur rest
    else if fsIsDir fs cur then
      (if s = ".." then resolveSegs fs cur.dropLast rest
       else resolveSegs fs (cur ++ [s]) rest)
    else none

/-- The `for base in candidate_outbases: p = base / name; if p.exists() and
p.is_file()` loop: the first base under which the name resolves to a regular
file, with that file's resolved path and content. -/
def findTarget (fs : Fs) (name : String) : List (List String) → Option (List String × String)
  | [] => none
  | b :: bs =>
    match resolveSegs fs b (splitChar '/' name) with
    | some q =>
      match fsGetFile fs q with
      | some c => some (q, c)
      | none => findTarget fs name bs
    | none => findTarget fs name bs

inductive DlResult
  | forbidden
  | notFound
  | served (p : List String) (content : String)
  deriving DecidableEq

/-- Handler.serve_download: fnmatch filename check, then the base scan. -/
def serveDownload (fs : Fs) (bases : List (List String)) (name : String) : DlResult :=
  if !(patTarGz name || patSha256 name) then .forbidden
  else
    match findTarget fs name bases with
    | some (q, c) => .served q c
    | none => .notFound

/-! ### The run-identifier grammar from the specification -/

def isDigitStr (s : String) : Bool := !(s.data.isEmpty) && s.data.all Char.isDigit

/-- Compact UTC timestamp of the naming convention: 8 digits, 'T', 6 digits,
'Z' (for example 20240101T000000Z). -/
def isCompactUtc (s : String) : Bool :=
  (s.data.length == 16) && (s.data.take 8).all Char.isDigit
    && ((s.data.drop 8).take 1 == ['T']) && ((s.data.drop 9).take 6).all Char.isDigit
    && (s.data.drop 15 == ['Z'])

/-- Modelled from the spec: the fixed run-identifier grammar
`<tool>-<token>-<counter>-<UTC compact timestamp>` plus the given suffix
(spec sections 4.1 and 6), with tool name keenetic-maxprobe, a non-empty
opaque token, a numeric run counter and a compact UTC timestamp. The source
never implements this check (its globs test only the prefix and suffix), so
this definition follows the specification's words for comparison. -/
def matchesRunIdGrammar (name suffix : String) : Bool :=
  strStartsWith name "keenetic-maxprobe-" && strEndsWith name suffix &&
  (let core := (name.data.drop 18).take ((name.data.drop 18).length - suffix.data.length)
   let parts := splitCharAux '-' [] core
   decide (3 ≤ parts.length)
     && isDigitStr (parts.getD (parts.length - 2) "")
     && isCompactUtc (parts.getD (parts.length - 1) "")
     && !(parts.take (parts.length - 2) == [""]))

/-! ### Helper lemmas -/

theorem infix_app_left {α : Type} {m l r : List α} (h : m <:+: l) : m <:+: l ++ r := by
  obtain ⟨s, t, rfl⟩ := h
  exact ⟨s, t ++ r, by simp⟩

theorem infix_app_right {α : Type} {m l r : List α} (h : m <:+: r) : m <:+: l ++ r := by
  obtain ⟨s, t, rfl⟩ := h
  exact ⟨l ++ s, t, by simp⟩

theorem pick_eq_validated (params cfg : String → Option String) (key : String)
    (allowed : List String) :
    pick params cfg key allowed = validatedValue params cfg key allowed := by
  unfold pick validatedValue
  by_cases h1 : strTrim ((params key).getD "") = ""
  · simp [h1]
  · by_cases h2 : allowed.contains (strTrim ((params key).getD "")) = true
    · simp [h1, h2]
    · simp [h1, h2]

/-! ### Claim theorems -/

/-- C1: a start request that arrives while the previously started probe
process is still alive (poll() is None) is rejected with the reason "Probe
is already running" — which carries the phrase "already running" — no new
process is spawned (no pid is returned and the recorded state, the only run
slot the service has, is returned unchanged). The lock held by start_run
makes this check-and-spawn a single atomic step, so at most one recorded
run is alive at any time within the service. -/
theorem C1_start_rejected_while_running (alive : Nat → Bool) (st : RunState)
    (probeBin : String) (params cfg : String → Option String) (newPid now p : Nat)
    (h1 : st.proc = some p) (h2 : alive p = true) :
    startRun alive st probeBin params cfg newPid now
        = (⟨false, some "Probe is already running", none, none⟩, st)
      ∧ "Probe is already running" = "Probe is " ++ "already running" := by
  have hp : procAlive alive st = true := by
    unfold procAlive
    rw [h1]
    exact h2
  constructor
  · unfold startRun
    rw [hp]
    simp
  · rfl

theorem C1_witness :
    startRun (fun _ => true) ⟨some 5, 3, ["c"]⟩ "/probe" (fun _ => none) (fun _ => none) 9 10
        = (⟨false, some "Probe is already running", none, none⟩, ⟨some 5, 3, ["c"]⟩)
      ∧ "Probe is already running" = "Probe is " ++ "already running" :=
  C1_start_rejected_while_running (fun _ => true) ⟨some 5, 3, ["c"]⟩ "/probe"
    (fun _ => none) (fun _ => none) 9 10 5 rfl rfl

/-- C2 counterexample: there is no durable exclusion lock. App.__init__
(server.py 158-169) always constructs the empty run state and reads no lock
artifact, so a restarted control service starts from `initRunState` even
while the probe process spawned by the previous instance is still alive;
its first start request is then accepted, giving two accepted starts with
the first process still alive — the claimed cross-restart refusal fails. -/
theorem C2_counterexample :
    ((startRun (fun _ => true) initRunState "/probe" (fun _ => none) (fun _ => none) 7 1).1.ok
        = true)
      ∧ ((startRun (fun _ => true) initRunState "/probe" (fun _ => none) (fun _ => none) 7 1).2.proc
        = some 7)
      ∧ ((fun _ => true : Nat → Bool) 7 = true)
      ∧ ((startRun (fun _ => true) initRunState "/probe" (fun _ => none) (fun _ => none) 8 2).1.ok
        = true) := by
  refine ⟨rfl, rfl, rfl, rfl⟩

/-- C2 amended: mutual exclusion is enforced in memory only, via a process
liveness check — a start request is accepted exactly when the service's own
recorded process is absent or no longer alive (so after the recorded
process exits, even without a stop call, the next start succeeds) — but
there is no durable lock, and a freshly constructed (restarted) service
always accepts a start regardless of processes spawned before the restart. -/
theorem C2_liveness_checked_in_memory_only (alive : Nat → Bool) (st : RunState)
    (probeBin : String) (params cfg : String → Option String) (newPid now : Nat) :
    ((startRun alive st probeBin params cfg newPid now).1.ok = true
        ↔ procAlive alive st = false)
      ∧ (startRun alive initRunState probeBin params cfg newPid now).1.ok = true
      ∧ (∀ p, st.proc = some p → alive p = false →
          (startRun alive st probeBin params cfg newPid now).1.ok = true) := by
  refine ⟨?_, ?_, ?_⟩
  · unfold startRun
    by_cases h : procAlive alive st
    · rw [h]
      simp
    · simp only [Bool.not_eq_true] at h
      rw [h]
      simp
  · unfold startRun procAlive initRunState
    simp
  · intro p hp hdead
    have h : procAlive alive st = false := by
      unfold procAlive
      rw [hp]
      exact hdead
    unfold startRun
    rw [h]
    simp

theorem C2_witness :
    (startRun (fun _ => false) ⟨some 7, 1, ["x"]⟩ "/probe" (fun _ => none) (fun _ => none) 8 2).1.ok
      = true :=
  (C2_liveness_checked_in_memory_only (fun _ => false) ⟨some 7, 1, ["x"]⟩ "/probe"
    (fun _ => none) (fun _ => none) 8 2).2.2 7 rfl rfl

/-- C7: stop with no live run (no recorded process, or the recorded process
already exited) returns ok with stopped = false and the "Not running" note,
resets the run slot to the empty state (the service keeps no durable lock
artifact anywhere, so nothing else is left behind), and a subsequent start
request is accepted whatever the process table then looks like. -/
theorem C7_stop_without_active_run (alive alive2 : Nat → Bool) (st : RunState)
    (probeBin : String) (params cfg : String → Option String) (newPid now : Nat)
    (h : procAlive alive st = false) :
    stopRun alive st = (⟨true, false, some "Not running"⟩, initRunState)
      ∧ initRunState.proc = none
      ∧ (startRun alive2 initRunState probeBin params cfg newPid now).1.ok = true := by
  refine ⟨?_, rfl, ?_⟩
  · unfold stopRun
    rw [h]
    simp
  · unfold startRun procAlive initRunState
    simp

theorem C7_witness :
    stopRun (fun _ => false) ⟨some 4, 0, []⟩ = (⟨true, false, some "Not running"⟩, initRunState)
      ∧ initRunState.proc = none
      ∧ (startRun (fun _ => true) initRunState "/probe" (fun _ => none) (fun _ => none) 6 7).1.ok
        = true :=
  C7_stop_without_active_run (fun _ => false) (fun _ => true) ⟨some 4, 0, []⟩ "/probe"
    (fun _ => none) (fun _ => none) 6 7 rfl

/-- C8: the claim says a request with a non-matching token is answered
unauthorized, and that with no token configured every request passes the
check. The code instead crashes on the request header
`Authorization: "Bearer "` (the bearer scheme followed only by whitespace):
check_token evaluates `auth.split(None, 1)[1]`, the split yields only
["Bearer"], and the subscript raises IndexError — whether or not a secret
is configured — so the request is aborted with no response at all. -/
theorem C8_bearer_whitespace_index_error :
    checkToken none (some "Bearer ") none "" = .indexError
      ∧ checkToken none (some "Bearer ") none "secret" = .indexError := by
  refine ⟨rfl, rfl⟩

/-- C10 counterexample: the header value " " is non-empty and differs from
the configured secret "s", yet authentication succeeds, because check_token
strips the header (to "") before testing it and therefore falls through to
the correct token in the query string. -/
theorem C10_counterexample :
    checkToken (some " ") none (some "s") "s" = .ok true
      ∧ (" " : String) ≠ ""
      ∧ (" " : String) ≠ "s"
      ∧ strTrim " " = "" := by
  refine ⟨rfl, by decide, by decide, rfl⟩

/-- C10 amended: token sources are consulted in the fixed order X-KMP-Token
header, then Authorization bearer value, then the token query parameter,
and only the first source that is non-empty after stripping whitespace is
compared with the secret: when a secret is configured and the X-KMP-Token
header strips to a non-empty value different from it, authentication fails
regardless of the other two sources. -/
theorem C10_header_precedence (h : String) (auth queryToken : Option String)
    (secret : String) (h1 : strTrim h ≠ "") (h2 : strTrim h ≠ secret)
    (h3 : secret ≠ "") :
    checkToken (some h) auth queryToken secret = .ok false := by
  have hne : h ≠ "" := by
    intro e
    apply h1
    rw [e]
    rfl
  simp [checkToken, hne, h1, h2, h3]

theorem C10_witness :
    checkToken (some "bad") none (some "s") "s" = .ok false :=
  C10_header_precedence "bad" none (some "s") "s" (by decide) (by decide) (by decide)

/-- Request parameters for the C4 counterexample: MAX_CPU set to a
non-numeric string. -/
def c4Params : String → Option String :=
  fun k => if k = "MAX_CPU" then some "not-a-number" else none

def c4Cfg : String → Option String := fun _ => none

/-- C4 counterexample: the supplied MAX_CPU value "not-a-number" fails the
claimed non-negative-integer type constraint and differs from the
configured default "85", yet build_command places it verbatim on the probe
command line — MAX_CPU, MAX_MEM, JOBS and CUSTOM_COLLECTORS are passed
through with no validation at all. -/
theorem C4_counterexample :
    "not-a-number" ∈ buildCommand "/probe" c4Params c4Cfg
      ∧ isDigitStr "not-a-number" = false
      ∧ "not-a-number" ≠ DEFAULTS "MAX_CPU" := by
  refine ⟨by decide, by decide, by decide⟩

/-- The data values build_command interpolates into the command line, as
opposed to its fixed flag tokens: the probe binary path and the thirteen
parameter values. Used to state flag omission robustly: a flag token that
build_command does not emit can occur in the command line only as one of
these data values. -/
def cmdValues (probeBin : String) (params cfg : String → Option String) : List String :=
  [probeBin,
   validatedValue params cfg "LANG_UI" ALLOWED_LANG_UI,
   validatedValue params cfg "MODE" ALLOWED_MODE,
   validatedValue params cfg "PROFILE" ALLOWED_PROFILE,
   validatedValue params cfg "COLLECTORS" ALLOWED_COLLECTORS,
   strTrim ((params "CUSTOM_COLLECTORS").getD (eff cfg "CUSTOM_COLLECTORS")),
   validatedValue params cfg "OUTBASE_POLICY" ALLOWED_OUTBASE_POLICY,
   strTrim ((params "OUTBASE_OVERRIDE").getD (eff cfg "OUTBASE_OVERRIDE")),
   validatedValue params cfg "DEPS_LEVEL" ALLOWED_DEPS_LEVEL,
   validatedValue params cfg "DEPS_MODE" ALLOWED_DEPS_MODE,
   strTrim ((params "MAX_CPU").getD (eff cfg "MAX_CPU")),
   strTrim ((params "MAX_MEM").getD (eff cfg "MAX_MEM")),
   strTrim ((params "JOBS").getD (eff cfg "JOBS"))]

theorem mem_ite_nil {α : Type} (c : Prop) [Decidable c] (l : List α) (x : α) :
    x ∈ (if c then l else []) ↔ c ∧ x ∈ l := by
  split
  case isTrue h => simp [h]
  case isFalse h => simp [h]

theorem mem_ite_both {α : Type} (c : Prop) [Decidable c] (l1 l2 : List α) (x : α) :
    x ∈ (if c then l1 else l2) ↔ (c ∧ x ∈ l1) ∨ (¬ c ∧ x ∈ l2) := by
  split
  case isTrue h => simp [h]
  case isFalse h => simp [h]

theorem outbase_flag_only_value (probeBin : String) (params cfg : String → Option String)
    (habs : isAbsolutePath (strTrim ((params "OUTBASE_OVERRIDE").getD (eff cfg "OUTBASE_OVERRIDE")))
      = false)
    (hmem : "--outbase" ∈ buildCommand probeBin params cfg) :
    "--outbase" ∈ cmdValues probeBin params cfg := by
  simp only [buildCommand, pick_eq_validated] at hmem
  rw [habs] at hmem
  simp only [cmdValues, List.mem_cons, List.not_mem_nil, or_false]
  simp [mem_ite_nil, mem_ite_both] at hmem
  tauto

set_option maxHeartbeats 1000000 in
theorem custom_flag_only_value (probeBin : String) (params cfg : String → Option String)
    (hnc : ¬(validatedValue params cfg "COLLECTORS" ALLOWED_COLLECTORS = "custom"
      ∧ strTrim ((params "CUSTOM_COLLECTORS").getD (eff cfg "CUSTOM_COLLECTORS")) ≠ ""))
    (hmem : "--custom-collectors" ∈ buildCommand probeBin params cfg) :
    "--custom-collectors" ∈ cmdValues probeBin params cfg := by
  simp only [buildCommand, pick_eq_validated] at hmem
  rw [if_neg hnc] at hmem
  simp only [cmdValues, List.mem_cons, List.not_mem_nil, or_false]
  simp [mem_ite_nil, mem_ite_both] at hmem
  tauto

/-- C4 amended: the enumerated-choice parameters (LANG_UI, MODE, PROFILE,
COLLECTORS, OUTBASE_POLICY, DEPS_LEVEL, DEPS_MODE) are validated against
their allow-lists, the supplied value being used exactly when it is
non-empty and allow-listed and the configured default otherwise.
OUTBASE_OVERRIDE is emitted as "--outbase value" when the stripped value is
non-empty and an absolute path, and when the stripped value is not absolute
(in particular when it is empty) no --outbase flag is emitted: the token
"--outbase" can then occur in the command line only as one of the
interpolated data values. CUSTOM_COLLECTORS is emitted as
"--custom-collectors value" exactly when the COLLECTORS choice resolves to
"custom" and the stripped value is non-empty — and then the stripped
supplied value is placed verbatim, with no validation of its content; when
that condition fails the flag is likewise not emitted. MAX_CPU, MAX_MEM and
JOBS are placed on the command line exactly as supplied (stripped), with no
allow-list or integer check. No parameter value ever makes the request
error: build_command is total. -/
theorem C4_validated_or_passthrough (probeBin : String) (params cfg : String → Option String) :
    (["--lang", validatedValue params cfg "LANG_UI" ALLOWED_LANG_UI]
        <:+: buildCommand probeBin params cfg)
      ∧ (["--mode", validatedValue params cfg "MODE" ALLOWED_MODE]
        <:+: buildCommand probeBin params cfg)
      ∧ (["--profile", validatedValue params cfg "PROFILE" ALLOWED_PROFILE]
        <:+: buildCommand probeBin params cfg)
      ∧ (["--collectors", validatedValue params cfg "COLLECTORS" ALLOWED_COLLECTORS]
        <:+: buildCommand probeBin params cfg)
      ∧ (["--outbase-policy", validatedValue params cfg "OUTBASE_POLICY" ALLOWED_OUTBASE_POLICY]
        <:+: buildCommand probeBin params cfg)
      ∧ (["--deps-level", validatedValue params cfg "DEPS_LEVEL" ALLOWED_DEPS_LEVEL]
        <:+: buildCommand probeBin params cfg)
      ∧ (["--deps-mode", validatedValue params cfg "DEPS_MODE" ALLOWED_DEPS_MODE]
        <:+: buildCommand probeBin params cfg)
      ∧ (["--max-cpu", strTrim ((params "MAX_CPU").getD (eff cfg "MAX_CPU"))]
        <:+: buildCommand probeBin params cfg)
      ∧ (["--max-mem", strTrim ((params "MAX_MEM").getD (eff cfg "MAX_MEM"))]
        <:+: buildCommand probeBin params cfg)
      ∧ (["--jobs", strTrim ((params "JOBS").getD (eff cfg "JOBS"))]
        <:+: buildCommand probeBin params cfg)
      ∧ (validatedValue params cfg "COLLECTORS" ALLOWED_COLLECTORS = "custom" →
          strTrim ((params "CUSTOM_COLLECTORS").getD (eff cfg "CUSTOM_COLLECTORS")) ≠ "" →
          ["--custom-collectors",
              strTrim ((params "CUSTOM_COLLECTORS").getD (eff cfg "CUSTOM_COLLECTORS"))]
            <:+: buildCommand probeBin params cfg)
      ∧ (¬(validatedValue params cfg "COLLECTORS" ALLOWED_COLLECTORS = "custom"
            ∧ strTrim ((params "CUSTOM_COLLECTORS").getD (eff cfg "CUSTOM_COLLECTORS")) ≠ "") →
          "--custom-collectors" ∈ buildCommand probeBin params cfg →
          "--custom-collectors" ∈ cmdValues probeBin params cfg)
      ∧ (strTrim ((params "OUTBASE_OVERRIDE").getD (eff cfg "OUTBASE_OVERRIDE")) ≠ "" →
          isAbsolutePath (strTrim ((params "OUTBASE_OVERRIDE").getD (eff cfg "OUTBASE_OVERRIDE")))
              = true →
          ["--outbase", strTrim ((params "OUTBASE_OVERRIDE").getD (eff cfg "OUTBASE_OVERRIDE"))]
            <:+: buildCommand probeBin params cfg)
      ∧ (isAbsolutePath (strTrim ((params "OUTBASE_OVERRIDE").getD (eff cfg "OUTBASE_OVERRIDE")))
            = false →
          "--outbase" ∈ buildCommand probeBin params cfg →
          "--outbase" ∈ cmdValues probeBin params cfg) := by
  refine ⟨?_, ?_, ?_, ?_, ?_, ?_, ?_, ?_, ?_, ?_, ?_, ?_, ?_, ?_⟩
  case _ =>
    simp only [buildCommand, pick_eq_validated]
    repeat first
    | exact infix_app_right (List.infix_refl _)
    | apply infix_app_left
  case _ =>
    simp only [buildCommand, pick_eq_validated]
    repeat first
    | exact infix_app_right (List.infix_refl _)
    | apply infix_app_left
  case _ =>
    simp only [buildCommand, pick_eq_validated]
    repeat first
    | exact infix_app_right (List.infix_refl _)
    | apply infix_app_left
  case _ =>
    simp only [buildCommand, pick_eq_validated]
    repeat first
    | exact infix_app_right (List.infix_refl _)
    | apply infix_app_left
  case _ =>
    simp only [buildCommand, pick_eq_validated]
    repeat first
    | exact infix_app_right (List.infix_refl _)
    | apply infix_app_left
  case _ =>
    simp only [buildCommand, pick_eq_validated]
    repeat first
    | exact infix_app_right (List.infix_refl _)
    | apply infix_app_left
  case _ =>
    simp only [buildCommand, pick_eq_validated]
    repeat first
    | exact infix_app_right (List.infix_refl _)
    | apply infix_app_left
  case _ =>
    simp only [buildCommand, pick_eq_validated]
    repeat first
    | exact infix_app_right (List.infix_refl _)
    | apply infix_app_left
  case _ =>
    simp only [buildCommand, pick_eq_validated]
    repeat first
    | exact infix_app_right (List.infix_refl _)
    | apply infix_app_left
  case _ =>
    simp only [buildCommand, pick_eq_validated]
    repeat first
    | exact infix_app_right (List.infix_refl _)
    | apply infix_app_left
  case _ =>
    intro hc hne
    simp only [buildCommand, pick_eq_validated]
    rw [if_pos (And.intro hc hne)]
    repeat first
    | exact infix_app_right (List.infix_refl _)
    | apply infix_app_left
  case _ =>
    intro hnc hmem
    exact custom_flag_only_value probeBin params cfg hnc hmem
  case _ =>
    intro hv habs
    simp only [buildCommand, pick_eq_validated]
    rw [if_pos hv, if_pos habs]
    repeat first
    | exact infix_app_right (List.infix_refl _)
    | apply infix_app_left
  case _ =>
    intro habs hmem
    exact outbase_flag_only_value probeBin params cfg habs hmem

/-- Request parameters for the C4 witness: a valid MODE and an absolute
OUTBASE_OVERRIDE. -/
def c4wParams : String → Option String :=
  fun k =>
    if k = "MODE" then some "safe"
    else if k = "OUTBASE_OVERRIDE" then some "/mnt/x" else none

/-- Request parameters for the C4 witness's custom-collectors side. -/
def c4cParams : String → Option String :=
  fun k =>
    if k = "COLLECTORS" then some "custom"
    else if k = "CUSTOM_COLLECTORS" then some "extra1,extra2" else none

theorem C4_witness :
    (["--outbase", strTrim ((c4wParams "OUTBASE_OVERRIDE").getD (eff c4Cfg "OUTBASE_OVERRIDE"))]
        <:+: buildCommand "/probe" c4wParams c4Cfg)
      ∧ (["--custom-collectors",
            strTrim ((c4cParams "CUSTOM_COLLECTORS").getD (eff c4Cfg "CUSTOM_COLLECTORS"))]
        <:+: buildCommand "/probe" c4cParams c4Cfg)
      ∧ "--outbase" ∉ buildCommand "/probe" c4Params c4Cfg
      ∧ "--custom-collectors" ∉ buildCommand "/probe" c4Params c4Cfg := by
  obtain ⟨-, -, -, -, -, -, -, -, -, -, -, -, hoe, -⟩ :=
    C4_validated_or_passthrough "/probe" c4wParams c4Cfg
  obtain ⟨-, -, -, -, -, -, -, -, -, -, hce, -, -, -⟩ :=
    C4_validated_or_passthrough "/probe" c4cParams c4Cfg
  obtain ⟨-, -, -, -, -, -, -, -, -, -, -, hco, -, hoo⟩ :=
    C4_validated_or_passthrough "/probe" c4Params c4Cfg
  refine ⟨hoe (by decide) (by decide), hce (by decide) (by decide), ?_, ?_⟩
  · intro hm
    exact absurd (hoo (by decide) hm) (by decide)
  · intro hm
    exact absurd (hco (by decide) hm) (by decide)

/-! ### C5: the log tail -/

/-- Filesystem for the C5 counterexample: one workdir whose run.log has
three lines. -/
def c5Fs : Fs :=
  [⟨[], .dir, 0⟩, ⟨["var"], .dir, 0⟩, ⟨["var", "tmp"], .dir, 0⟩,
   ⟨["var", "tmp", "keenetic-maxprobe-c.work"], .dir, 4⟩,
   ⟨["var", "tmp", "keenetic-maxprobe-c.work", "meta"], .dir, 4⟩,
   ⟨["var", "tmp", "keenetic-maxprobe-c.work", "meta", "run.log"], .file "a\nb\nc\n", 4⟩]

def countNewlines (s : String) : Nat := (s.data.filter (fun c => c = '\n')).length

/-- Query string for the C5 counterexample: it requests 1 line. -/
def c5Query : String → Option String := fun k => if k = "lines" then some "1" else none

/-- C5 counterexample: the /api/log endpoint has no line-count parameter at
all — with a query requesting 1 line it still returns all 3 lines of the
log, because the handler reads only the `kind` parameter and bounds the
tail by bytes (64000), not by lines. -/
theorem C5_counterexample :
    c5Query "lines" = some "1"
      ∧ countNewlines (handleApiLog c5Fs none none c5Query (fun _ _ => none)).text = 3 := by
  refine ⟨rfl, by decide⟩

/-- C5 amended: a log-tail request selects a log by `kind` and carries no
line count (every query parameter other than `kind` is ignored); the
response text is the suffix consisting of the last min(size, 64000) bytes
of the target log, and only that many bytes are read from the end of the
file, regardless of the file's size. -/
theorem C5_byte_bounded_tail (c : String) (fs : Fs)
    (outbase confOverride : Option (List String)) (query : String → Option String)
    (tarMember : List String → String → Option String) :
    ((tailText (some c) 64000).data <:+ c.data)
      ∧ (tailText (some c) 64000).length = min c.length 64000
      ∧ tailTextBytesRead (some c) 64000 = min c.length 64000
      ∧ handleApiLog fs outbase confOverride query tarMember
        = handleApiLog fs outbase confOverride
            (fun k => if k = "kind" then query k else some "ignored") tarMember := by
  have hcl : c.length = c.data.length := rfl
  refine ⟨?_, ?_, rfl, ?_⟩
  · by_cases hle : c.length ≤ 64000
    · simp only [tailText, hle, if_true]
      exact List.suffix_refl _
    · simp only [tailText, hle, if_false]
      exact List.drop_suffix _ _
  · by_cases hle : c.length ≤ 64000
    · simp only [tailText, hle, if_true]
      omega
    · simp only [tailText, hle, if_false]
      have : (String.mk (c.data.drop (c.length - 64000))).length
          = (c.data.drop (c.length - 64000)).length := rfl
      rw [this, List.length_drop]
      omega
  · simp [handleApiLog]

/-! ### C6: best-effort reads -/

/-- C6: every status or log request succeeds whatever the probe has (or has
not) written: get_status and the /api/log handler always answer ok over
every filesystem state; a missing progress file reads as ""; and a
summary.json whose content json.loads rejects yields a null summary field
rather than an error. -/
theorem C6_status_best_effort (fs : Fs) (outbase confOverride : Option (List String))
    (jsonParse : String → Option String) (tarMember : List String → String → Option String)
    (alive : Nat → Bool) (st : RunState) (query : String → Option String) :
    (getStatus fs outbase confOverride jsonParse tarMember alive st).ok = true
      ∧ (handleApiLog fs outbase confOverride query tarMember).ok = true
      ∧ (∀ wd, fsGetFile fs (wd ++ ["meta", "phase.txt"]) = none →
          (readProgress fs wd).phase = "")
      ∧ (∀ wd, fsGetFile fs (wd ++ ["meta", "progress.txt"]) = none →
          (readProgress fs wd).progress = "")
      ∧ (∀ wd c,
          findLatestWorkdir fs (candidateOutbases fs outbase confOverride) = some wd →
          fsGetFile fs (wd ++ ["analysis", "summary.json"]) = some c →
          jsonParse c = none →
          (getStatus fs outbase confOverride jsonParse tarMember alive st).latest.summary
            = some none) := by
  refine ⟨rfl, ?_, ?_, ?_, ?_⟩
  · cases hw : findLatestWorkdir fs (candidateOutbases fs outbase confOverride) with
    | some wd => simp [handleApiLog, hw]
    | none =>
      cases ha : findLatestArchive fs (candidateOutbases fs outbase confOverride) with
      | some a => simp [handleApiLog, hw, ha]
      | none => simp [handleApiLog, hw, ha]
  · intro wd h
    simp [readProgress, readMetaText, h]
  · intro wd h
    simp [readProgress, readMetaText, h]
  · intro wd c h1 h2 h3
    simp [getStatus, h1, h2, h3]

/-- Filesystem for the C6 witness: a workdir containing a summary.json that
the JSON parser rejects (the parser below rejects everything). -/
def c6Fs : Fs :=
  [⟨[], .dir, 0⟩, ⟨["var"], .dir, 0⟩, ⟨["var", "tmp"], .dir, 0⟩,
   ⟨["var", "tmp", "keenetic-maxprobe-b.work"], .dir, 3⟩,
   ⟨["var", "tmp", "keenetic-maxprobe-b.work", "analysis"], .dir, 3⟩,
   ⟨["var", "tmp", "keenetic-maxprobe-b.work", "analysis", "summary.json"], .file "not json", 3⟩]

theorem C6_witness :
    (getStatus c6Fs none none (fun _ => none) (fun _ _ => none) (fun _ => true) initRunState).ok
        = true
      ∧ (readProgress c6Fs ["nowhere"]).phase = ""
      ∧ (getStatus c6Fs none none (fun _ => none) (fun _ _ => none) (fun _ => true)
            initRunState).latest.summary = some none :=
  have h := C6_status_best_effort c6Fs none none (fun _ => none) (fun _ _ => none)
    (fun _ => true) initRunState (fun _ => none)
  ⟨h.1, h.2.2.1 ["nowhere"] (by decide),
   h.2.2.2.2 ["var", "tmp", "keenetic-maxprobe-b.work"] "not json" (by decide) (by decide) rfl⟩

/-! ### C3: download containment -/

/-- Filesystem for the C3 counterexample: a probe working directory exists
under the base /var/tmp, and a file /etc/evil.tar.gz lies outside every
candidate base. -/
def c3Fs : Fs :=
  [⟨[], .dir, 0⟩, ⟨["var"], .dir, 0⟩, ⟨["var", "tmp"], .dir, 0⟩,
   ⟨["var", "tmp", "keenetic-maxprobe-a.work"], .dir, 5⟩,
   ⟨["etc"], .dir, 0⟩, ⟨["etc", "evil.tar.gz"], .file "top-secret", 9⟩]

/-- The download name of the C3 failing input: it passes the fnmatch check
(fnmatch's `*` matches `/` and `..`) and traverses out of the base. -/
def c3Name : String := "keenetic-maxprobe-a.work/../../../etc/evil.tar.gz"

/-- C3: the claim requires a resolved-path containment check, but
serve_download has none — its only name filter is fnmatch against
`keenetic-maxprobe-*.tar.gz(.sha256)`, whose `*` matches `/` and `..`, and
the located `base / name` is opened wherever it resolves. For the failing
input, the file /etc/evil.tar.gz, which lies outside every configured base
directory, is served. The two specification examples that stay inside the
pattern filter (a plain `../../etc/passwd` and a wrong suffix) are indeed
answered forbidden. -/
theorem C3_download_escapes_bases :
    serveDownload c3Fs (candidateOutbases c3Fs none none) c3Name
        = .served ["etc", "evil.tar.gz"] "top-secret"
      ∧ ((candidateOutbases c3Fs none none).all
          (fun b => !(b.isPrefixOf ["etc", "evil.tar.gz"])) = true)
      ∧ serveDownload c3Fs (candidateOutbases c3Fs none none) "../../etc/passwd" = .forbidden
      ∧ serveDownload c3Fs (candidateOutbases c3Fs none none)
          "keenetic-maxprobe-x-1-20240101T000000Z.tar.gz.sh" = .forbidden := by
  refine ⟨by decide, by decide, by decide, by decide⟩

/-! ### C9: listing filter and order -/

/-- Filesystem for the C9 counterexample: an archive name with the right
prefix and suffix but no counter or timestamp at all. -/
def c9Fs : Fs :=
  [⟨[], .dir, 0⟩, ⟨["var"], .dir, 0⟩, ⟨["var", "tmp"], .dir, 0⟩,
   ⟨["var", "tmp", "keenetic-maxprobe-x.tar.gz"], .file "data", 7⟩]

/-- C9 counterexample: the name "keenetic-maxprobe-x.tar.gz" does not match
the run-identifier grammar (it has no numeric counter and no timestamp),
yet list_archives includes it, because the code filters only by the glob
prefix and suffix. -/
theorem C9_counterexample :
    (listArchives c9Fs (candidateOutbases c9Fs none none)).map ArchEnt.name
        = ["keenetic-maxprobe-x.tar.gz"]
      ∧ matchesRunIdGrammar "keenetic-maxprobe-x.tar.gz" ".tar.gz" = false := by
  refine ⟨by decide, by decide⟩

theorem candLoop_only_dirs (fs : Fs) (l : List (List String)) :
    ∀ uniq, (∀ p ∈ uniq, fsIsDir fs p = true) →
      ∀ p ∈ candLoop fs uniq l, fsIsDir fs p = true := by
  induction l with
  | nil =>
    intro uniq h p hp
    exact h p hp
  | cons q t ih =>
    intro uniq h p hp
    unfold candLoop at hp
    split at hp
    · exact ih uniq h p hp
    · split at hp
      · refine ih (uniq ++ [q]) ?_ p hp
        intro x hx
        rcases List.mem_append.mp hx with h1 | h2
        · exact h x h1
        · have : x = q := by simpa using h2
          subst this
          assumption
      · exact ih uniq h p hp

/-- C9 amended: the working-directory and archive listings contain only
entries directly inside an existing candidate base whose final name matches
the glob patterns of the source — the literal prefix "keenetic-maxprobe-"
followed by anything and the fixed suffix (.tar.gz or .tar.gz.sha256 for
archives, .work for working directories) — not the full
token-counter-timestamp grammar; the archive listing is sorted descending
by modification time; and only bases that exist as directories are
consulted, so missing bases are skipped rather than failing. -/
theorem C9_prefix_suffix_filter_sorted (fs : Fs) (outbase confOverride : Option (List String)) :
    ((listArchives fs (candidateOutbases fs outbase confOverride)).all
        (fun e => patTarGz e.name || patSha256 e.name) = true)
      ∧ List.Sorted (byMtimeDesc ArchEnt.mtime)
          (listArchives fs (candidateOutbases fs outbase confOverride))
      ∧ ((candidateOutbases fs outbase confOverride).all (fun b => fsIsDir fs b) = true)
      ∧ (∀ wd, findLatestWorkdir fs (candidateOutbases fs outbase confOverride) = some wd →
          patWork ((wd.getLast?).getD "") = true) := by
  refine ⟨?_, ?_, ?_, ?_⟩
  · rw [List.all_eq_true]
    intro e he
    unfold listArchives at he
    have hmem := (List.perm_insertionSort _ _).subset he
    rw [List.mem_flatten] at hmem
    obtain ⟨l, hl, hel⟩ := hmem
    rw [List.mem_map] at hl
    obtain ⟨b, _, rfl⟩ := hl
    rcases List.mem_append.mp hel with h | h
    · rw [List.mem_map] at h
      obtain ⟨o, ho, rfl⟩ := h
      unfold globEnts at ho
      rw [List.mem_filter] at ho
      have hpat : patTarGz (entName o) = true := by
        have := ho.2
        simp only [Bool.and_eq_true] at this
        exact this.2
      simp only [mkArchEnt, hpat, Bool.true_or]
    · rw [List.mem_map] at h
      obtain ⟨o, ho, rfl⟩ := h
      unfold globEnts at ho
      rw [List.mem_filter] at ho
      have hpat : patSha256 (entName o) = true := by
        have := ho.2
        simp only [Bool.and_eq_true] at this
        exact this.2
      simp only [mkArchEnt, hpat, Bool.or_true]
  · exact List.sorted_insertionSort _ _
  · rw [List.all_eq_true]
    intro b hb
    refine candLoop_only_dirs fs _ [] ?_ b hb
    intro x hx
    simp at hx
  · intro wd h
    unfold findLatestWorkdir at h
    rw [Option.map_eq_some'] at h
    obtain ⟨pr, hpr, hsnd⟩ := h
    have hmem : pr ∈ List.insertionSort (byMtimeDesc Prod.fst)
        (((candidateOutbases fs outbase confOverride).map (fun b =>
            ((globEnts fs b patWork).filter isDirEnt).map
              (fun e => (e.mtime, e.path)))).flatten) :=
      List.mem_of_mem_head? hpr
    have hmem2 := (List.perm_insertionSort _ _).subset hmem
    rw [List.mem_flatten] at hmem2
    obtain ⟨l, hl, hel⟩ := hmem2
    rw [List.mem_map] at hl
    obtain ⟨b, _, rfl⟩ := hl
    rw [List.mem_map] at hel
    obtain ⟨o, ho, rfl⟩ := hel
    rw [List.mem_filter] at ho
    have ho2 := ho.1
    unfold globEnts at ho2
    rw [List.mem_filter] at ho2
    have hpat : patWork (entName o) = true := by
      have := ho2.2
      simp only [Bool.and_eq_true] at this
      exact this.2
    have hwd : wd = o.path := by
      rw [← hsnd]
    rw [hwd]
    exact hpat

theorem C9_witness :
    ((listArchives c6Fs (candidateOutbases c6Fs none none)).all
        (fun e => patTarGz e.name || patSha256 e.name) = true)
      ∧ patWork (((["var", "tmp", "keenetic-maxprobe-b.work"] : List String).getLast?).getD "")
        = true :=
  have h := C9_prefix_suffix_filter_sorted c6Fs none none
  ⟨h.1, h.2.2.2 ["var", "tmp", "keenetic-maxprobe-b.work"] (by decide)⟩

end KMP
